import Mathlib

/-!
Verification of the imagegenai backend's provider abstraction and prompt
ledger, shallowly embedded from `apps/backend/src`.

Python strings are modelled as lists of Unicode code points (`PyStr`).
External library functions (`unicodedata.normalize`, `str.lower`,
`re.sub(r'\s+', ' ', ·)`, `str.strip`, `hashlib.sha256`, `base64`,
`pathlib.Path(...).suffix`) are modelled over this representation; the
Unicode data tables are instantiated with the fragment of the Unicode
character database exercised by the theorems below (ASCII, the whitespace
set matched by Python's `\s`, and U+1E96 = U+0068 U+0331), faithful to the
real tables on that fragment.  SHA-256 itself is kept as a parameter
`sha : PyStr → String`: no theorem depends on any property of the digest
function beyond it being a function.
-/

namespace ImageGenAI

/-- Python strings as lists of Unicode code points. -/

abbrev PyStr := List Nat

/-- Interpret a Lean string literal as a Python string (list of code points). -/

def strToPy (s : String) : PyStr := s.data.map Char.toNat

/-- The set of code points matched by Python's regex `\s` on `str` patterns,
which coincides with the set stripped by `str.strip()`:
tab, LF, VT, FF, CR, FS, GS, RS, US, space, NEL, NBSP, U+1680,
U+2000–U+200A, U+2028, U+2029, U+202F, U+205F, U+3000. -/

def isPySpace (c : Nat) : Bool :=
  c == 0x9 || c == 0xA || c == 0xB || c == 0xC || c == 0xD ||
  c == 0x1C || c == 0x1D || c == 0x1E || c == 0x1F || c == 0x20 ||
  c == 0x85 || c == 0xA0 || c == 0x1680 ||
  (0x2000 ≤ c && c ≤ 0x200A) || c == 0x2028 || c == 0x2029 ||
  c == 0x202F || c == 0x205F || c == 0x3000

/-- Modelled from Python `str.lower`, one code point to a list of code
points.  Instantiated with the ASCII simple case mappings plus the one
unconditional multi-character special lowering U+0130 → U+0069 U+0307;
code points outside this fragment are case-inert here. -/

def lowerChar (c : Nat) : List Nat :=
  if 0x41 ≤ c ∧ c ≤ 0x5A then [c + 0x20]
  else if c = 0x130 then [0x69, 0x307]
  else [c]

/-- Modelled from Python `str.lower` on whole strings. -/

def pyLower (s : PyStr) : PyStr := (s.map lowerChar).flatten

/-- Canonical decomposition, instantiated with the fragment used below:
U+1E96 (LATIN SMALL LETTER H WITH LINE BELOW) decomposes to
U+0068 U+0331; everything else is decomposition-inert. -/

def decompChar (c : Nat) : List Nat :=
  if c = 0x1E96 then [0x68, 0x331] else [c]

/-- Canonical composition of a pair of code points, instantiated with the
fragment used below: U+0068 + U+0331 compose to U+1E96 (there is no
precomposed capital counterpart, so U+0048 + U+0331 does not compose). -/

def canonComp (a b : Nat) : Option Nat :=
  if a = 0x68 ∧ b = 0x331 then some 0x1E96 else none

/-- Canonical composition pass over a string: adjacent pairs are composed
left to right.  On the instantiated table no composite composes further,
so the recomposed character simply replaces the pair. -/

def composeList : PyStr → PyStr
  | [] => []
  | [c] => [c]
  | a :: b :: rest =>
    match canonComp a b with
    | some d => d :: composeList rest
    | none => a :: composeList (b :: rest)

/-- Modelled from Python `unicodedata.normalize("NFKC", ·)`: decompose,
then canonically compose, over the instantiated Unicode fragment. -/

def pyNFKC (s : PyStr) : PyStr := composeList ((s.map decompChar).flatten)

/-- Modelled from Python `str.strip()`: drop leading and trailing
whitespace code points. -/

def pyStrip (s : PyStr) : PyStr :=
  ((s.dropWhile (fun c => isPySpace c)).reverse.dropWhile
    (fun c => isPySpace c)).reverse

/-- Modelled from Python `re.sub(r'\s+', ' ', ·)`: each maximal run of
whitespace is replaced by a single space.  The flag records whether the
previous character was inside a whitespace run. -/

def collapseAux : Bool → PyStr → PyStr
  | _, [] => []
  | inRun, c :: rest =>
    if isPySpace c then
      if inRun then collapseAux true rest
      else 0x20 :: collapseAux true rest
    else c :: collapseAux false rest

/-- `re.sub(r'\s+', ' ', s)`. -/

def collapseWS (s : PyStr) : PyStr := collapseAux false s

/-- `Prompt.normalize_prompt` from `src/models/prompt.py`:
empty stays empty; otherwise NFKC-normalize, lowercase, strip, and
collapse internal whitespace runs to single spaces. -/

def normalize_prompt (s : PyStr) : PyStr :=
  if s = [] then []
  else collapseWS (pyStrip (pyLower (pyNFKC s)))

/-- `Prompt.hash_prompt` from `src/models/prompt.py`: the hex digest of
the SHA-256 of the normalized prompt.  The digest function is the
parameter `sha`. -/

def hash_prompt (sha : PyStr → String) (s : PyStr) : String :=
  sha (normalize_prompt s)

/-! ### Prompt ledger: data model, repository, service

`src/models/prompt.py`, `src/repositories/prompt_repository.py`,
`src/services/prompt_service.py`.  The PostgreSQL table is modelled as a
list of rows plus an id counter; `CURRENT_TIMESTAMP` is the explicit
parameter `now` (microseconds since the epoch, matching PostgreSQL's
microsecond timestamp resolution).  The connection can be broken
(`connOk = false`), in which case every repository operation raises — this
models `db_connection.get_connection()` failing. -/

/-- The `Prompt` dataclass from `src/models/prompt.py`, which doubles as
the row shape of the `prompts` table. -/

structure Prompt where
  id : Option Nat := none
  prompt_text : PyStr := []
  prompt_hash : String := ""
  total_uses : Nat := 0
  total_fails : Nat := 0
  first_used_at : Option Int := none
  last_used_at : Option Int := none
  model : Option String := none
  thumbnail_data : Option (List Nat) := none
  thumbnail_mime : Option String := none
  thumbnail_width : Option Nat := none
  thumbnail_height : Option Nat := none
deriving Repr, DecidableEq

/-- `Prompt.__post_init__`: auto-generate the hash when the text is
truthy (non-empty) and no hash was supplied. -/

def postInit (sha : PyStr → String) (p : Prompt) : Prompt :=
  if p.prompt_text ≠ [] ∧ p.prompt_hash = "" then
    { p with prompt_hash := hash_prompt sha p.prompt_text }
  else p

/-- Errors crossing the boundaries modelled here. -/

inductive PyError
  | connectionFailure
  | valueError (msg : String)
  | attributeError (attr : String)
deriving Repr, DecidableEq

/-- The backing store: the `prompts` table, the id sequence, and whether
the database connection is usable. -/

structure DB where
  rows : List Prompt := []
  nextId : Nat := 1
  connOk : Bool := true
deriving Repr

/-- Row predicate for `WHERE prompt_hash = %s`. -/

def rowMatchHash (h : String) (r : Prompt) : Bool := r.prompt_hash == h

/-- Row predicate for `WHERE id = %s`. -/

def rowMatchId (pid : Nat) (r : Prompt) : Bool := r.id == some pid

/-- `PromptRepository.create`: INSERT the row, RETURNING the fresh id.
The `first_used_at`/`last_used_at` values come from column defaults in the
external schema; modelled from the spec: `first_used_at` set once at
creation, `last_used_at` updated on every use. -/

def repoCreate (db : DB) (p : Prompt) (now : Int) : Except PyError (DB × Prompt) :=
  if db.connOk = false then .error .connectionFailure
  else
    let saved : Prompt :=
      { p with id := some db.nextId, first_used_at := some now, last_used_at := some now }
    .ok ({ db with rows := db.rows ++ [saved], nextId := db.nextId + 1 }, saved)

/-- `PromptRepository.update`: `UPDATE prompts SET total_uses = total_uses
+ 1, last_used_at = CURRENT_TIMESTAMP WHERE prompt_hash = %s`; when a row
was touched, re-SELECT it (fetchone: first matching row) and commit;
otherwise roll back and return the argument unchanged. -/

def repoUpdate (db : DB) (p : Prompt) (now : Int) : Except PyError (DB × Prompt) :=
  if db.connOk = false then .error .connectionFailure
  else if db.rows.any (rowMatchHash p.prompt_hash) then
    let rows' := db.rows.map fun r =>
      if rowMatchHash p.prompt_hash r then
        { r with total_uses := r.total_uses + 1, last_used_at := some now }
      else r
    match rows'.find? (rowMatchHash p.prompt_hash) with
    | some row => .ok ({ db with rows := rows' }, row)
    | none => .ok (db, p)  -- unreachable: the UPDATE matched; source rolls back
  else .ok (db, p)  -- rowcount = 0: roll back, return the argument

/-- `PromptRepository.increment_usage_by_id`. -/

def repoIncrementUsageById (db : DB) (pid : Nat) (now : Int) : Except PyError (DB × Bool) :=
  if db.connOk = false then .error .connectionFailure
  else if db.rows.any (rowMatchId pid) then
    .ok ({ db with rows := db.rows.map fun r =>
            if rowMatchId pid r then
              { r with total_uses := r.total_uses + 1, last_used_at := some now }
            else r }, true)
  else .ok (db, false)

/-- `PromptRepository.increment_failures_by_id`. -/

def repoIncrementFailuresById (db : DB) (pid : Nat) (now : Int) : Except PyError (DB × Bool) :=
  if db.connOk = false then .error .connectionFailure
  else if db.rows.any (rowMatchId pid) then
    .ok ({ db with rows := db.rows.map fun r =>
            if rowMatchId pid r then
              { r with total_fails := r.total_fails + 1, last_used_at := some now }
            else r }, true)
  else .ok (db, false)

/-- `PromptRepository.increment_failures` (keyed by hash). -/

def repoIncrementFailures (db : DB) (h : String) (now : Int) : Except PyError (DB × Bool) :=
  if db.connOk = false then .error .connectionFailure
  else if db.rows.any (rowMatchHash h) then
    .ok ({ db with rows := db.rows.map fun r =>
            if rowMatchHash h r then
              { r with total_fails := r.total_fails + 1, last_used_at := some now }
            else r }, true)
  else .ok (db, false)

/-- `PromptRepository.exists_by_prompt`: `SELECT 1 FROM prompts WHERE
prompt_hash = %s`. -/

def repoExistsByPrompt (db : DB) (p : Prompt) : Except PyError Bool :=
  if db.connOk = false then .error .connectionFailure
  else .ok (db.rows.any (rowMatchHash p.prompt_hash))

/-- PostgreSQL timestamps have microsecond resolution. -/

def microsecondsPerDay : Int := 86400000000

/-- `PromptRepository.cleanup_old`: `DELETE FROM prompts WHERE
thumbnail_data IS NULL AND last_used_at < CURRENT_TIMESTAMP - (days ||
' days')::INTERVAL`, returning the deleted row count.  A SQL comparison
against a NULL `last_used_at` is not true, so such rows are kept. -/

def cleanupShouldDelete (now : Int) (days : Nat) (r : Prompt) : Bool :=
  r.thumbnail_data == none &&
    (match r.last_used_at with
     | some t => decide (t < now - (days : Int) * microsecondsPerDay)
     | none => false)

/-- `PromptRepository.cleanup_old`. -/

def repoCleanupOld (db : DB) (days : Nat) (now : Int) : Except PyError (Nat × DB) :=
  if db.connOk = false then .error .connectionFailure
  else
    .ok ((db.rows.filter (cleanupShouldDelete now days)).length,
      { db with rows := db.rows.filter fun r => !(cleanupShouldDelete now days r) })

/-- Result of the external thumbnail utility
(`ThumbnailGenerator.generate_thumbnail_from_bytes`), an opaque
dependency: `some` models the success dict, `none` the failure dict. -/

structure ThumbResult where
  thumbnail_data : List Nat
  mime_type : String
  width : Nat
  height : Nat
deriving Repr, DecidableEq

/-- The thumbnail-attachment step inside `PromptService.create_prompt`:
when image bytes are truthy (`if image_data:` — empty bytes are falsy) and
the generator succeeds, populate all four thumbnail fields; on generator
failure the prompt is saved without a thumbnail (failure is only logged). -/

def attachThumbnail (tg : List Nat → Option ThumbResult) (p0 : Prompt)
    (imageData : Option (List Nat)) : Prompt :=
  match imageData with
  | some bytes =>
    if bytes = [] then p0
    else
      match tg bytes with
      | some t =>
        { p0 with thumbnail_data := some t.thumbnail_data,
                  thumbnail_mime := some t.mime_type,
                  thumbnail_width := some t.width,
                  thumbnail_height := some t.height }
      | none => p0
  | none => p0

/-- `PromptService.create_prompt`: build the dataclass (hash auto-set by
`__post_init__`), attach a thumbnail, then `repository.create`. -/

def serviceCreatePrompt (sha : PyStr → String) (tg : List Nat → Option ThumbResult)
    (db : DB) (text : PyStr) (model : Option String) (imageData : Option (List Nat))
    (totalUses : Nat) (now : Int) : Except PyError (DB × Prompt) :=
  repoCreate db
    (attachThumbnail tg
      (postInit sha { prompt_text := text, model := model, total_uses := totalUses })
      imageData) now

/-- `PromptService.update_prompt`: build the dataclass, raise `ValueError`
when no record with its hash exists, else `repository.update`. -/

def serviceUpdatePrompt (sha : PyStr → String) (db : DB) (text : PyStr)
    (model : Option String) (now : Int) : Except PyError (DB × Prompt) :=
  match repoExistsByPrompt db (postInit sha { prompt_text := text, model := model }) with
  | .error e => .error e
  | .ok true => repoUpdate db (postInit sha { prompt_text := text, model := model }) now
  | .ok false => .error (.valueError "Prompt does not exist and cannot be updated")

/-- `PromptService.exists_by_text`: wrap the text in a temporary `Prompt`
and ask the repository. -/

def serviceExistsByText (sha : PyStr → String) (db : DB) (text : PyStr) :
    Except PyError Bool :=
  repoExistsByPrompt db (postInit sha { prompt_text := text })

/-- The body of `PromptService.attempt_save_prompt`'s `try` block:
if the text's hash exists, update usage; else create with usage 1. -/

def attemptSavePromptCore (sha : PyStr → String) (tg : List Nat → Option ThumbResult)
    (geminiModel : String) (db : DB) (text : PyStr) (thumb : Option (List Nat))
    (now : Int) : Except PyError (DB × Prompt) :=
  match serviceExistsByText sha db text with
  | .error e => .error e
  | .ok true => serviceUpdatePrompt sha db text (some geminiModel) now
  | .ok false => serviceCreatePrompt sha tg db text (some geminiModel) thumb 1 now

/-- `PromptService.attempt_save_prompt`: the `try` body above with every
exception caught and turned into `None`. -/

def attempt_save_prompt (sha : PyStr → String) (tg : List Nat → Option ThumbResult)
    (geminiModel : String) (db : DB) (text : PyStr) (thumb : Option (List Nat))
    (now : Int) : DB × Option Prompt :=
  match attemptSavePromptCore sha tg geminiModel db text thumb now with
  | .ok (db', p) => (db', some p)
  | .error _ => (db, none)

/-! ### Counter mutations as an operation sequence (C8) -/

/-- The ledger's counter-mutating operations: `PromptRepository.update`
(usage increment keyed by hash), `increment_usage_by_id`,
`increment_failures_by_id`, and `increment_failures` (keyed by hash). -/

inductive LedgerOp
  | update (hash : String)
  | incUsageById (pid : Nat)
  | incFailuresById (pid : Nat)
  | incFailuresByHash (hash : String)
deriving Repr, DecidableEq

/-- The database state after running one ledger operation at time `now`;
a raised error leaves the (rolled-back) state unchanged. -/

def applyLedgerOp (db : DB) (op : LedgerOp) (now : Int) : DB :=
  match op with
  | .update h =>
    match repoUpdate db { prompt_hash := h } now with
    | .ok (db', _) => db'
    | .error _ => db
  | .incUsageById pid =>
    match repoIncrementUsageById db pid now with
    | .ok (db', _) => db'
    | .error _ => db
  | .incFailuresById pid =>
    match repoIncrementFailuresById db pid now with
    | .ok (db', _) => db'
    | .error _ => db
  | .incFailuresByHash h =>
    match repoIncrementFailures db h now with
    | .ok (db', _) => db'
    | .error _ => db

/-- A sequence of ledger operations, each with its own timestamp. -/

def applyLedgerOps (db : DB) : List (LedgerOp × Int) → DB
  | [] => db
  | (op, now) :: rest => applyLedgerOps (applyLedgerOp db op now) rest

/-- Which rows a ledger operation's WHERE clause touches. -/

def opMatches (op : LedgerOp) (r : Prompt) : Bool :=
  match op with
  | .update h => rowMatchHash h r
  | .incUsageById pid => rowMatchId pid r
  | .incFailuresById pid => rowMatchId pid r
  | .incFailuresByHash h => rowMatchHash h r

/-- Whether the operation increments `total_uses` (else `total_fails`). -/

def opIsUse : LedgerOp → Bool
  | .update _ => true
  | .incUsageById _ => true
  | .incFailuresById _ => false
  | .incFailuresByHash _ => false

/-- The SET clause of each operation, applied to a touched row. -/

def opBump (op : LedgerOp) (now : Int) (r : Prompt) : Prompt :=
  match op with
  | .update _ => { r with total_uses := r.total_uses + 1, last_used_at := some now }
  | .incUsageById _ => { r with total_uses := r.total_uses + 1, last_used_at := some now }
  | .incFailuresById _ => { r with total_fails := r.total_fails + 1, last_used_at := some now }
  | .incFailuresByHash _ => { r with total_fails := r.total_fails + 1, last_used_at := some now }

def countUses (ops : List (LedgerOp × Int)) : Nat :=
  (ops.filter fun p => opIsUse p.1).length

def countFails (ops : List (LedgerOp × Int)) : Nat :=
  (ops.filter fun p => !opIsUse p.1).length

/-- Concrete one-row table for the C8 witness. -/

def c8Row : Prompt :=
  { id := some 1, prompt_text := [0x61], prompt_hash := "h", total_uses := 3, total_fails := 2 }

def c8Db : DB := { rows := [c8Row], nextId := 2, connOk := true }

/-- A concrete interleaving of two usage increments and one failure
increment, all targeting the row above. -/

def c8Ops : List (LedgerOp × Int) :=
  [(LedgerOp.update "h", 5), (LedgerOp.incFailuresById 1, 6), (LedgerOp.incUsageById 1, 7)]

/-- Concrete rows for the C9 witness: thumbnail-less exactly at the
boundary, thumbnail-less one microsecond older, and an ancient row with a
thumbnail. -/

def c9RowBoundary : Prompt :=
  { id := some 1, prompt_text := [0x61], prompt_hash := "a",
    last_used_at := some (1000 - 90 * microsecondsPerDay) }

def c9RowOlder : Prompt :=
  { id := some 2, prompt_text := [0x62], prompt_hash := "b",
    last_used_at := some (1000 - 90 * microsecondsPerDay - 1) }

def c9RowThumb : Prompt :=
  { id := some 3, prompt_text := [0x63], prompt_hash := "c",
    last_used_at := some (-500000000000000), thumbnail_data := some [1],
    thumbnail_mime := some "image/jpeg", thumbnail_width := some 1,
    thumbnail_height := some 1 }

def c9Db : DB := { rows := [c9RowBoundary, c9RowOlder, c9RowThumb], nextId := 4, connOk := true }

/-! ### The generation endpoint's usage/failure tracking (C1)

`src/api/generate.py`, lines 133–192.  The endpoint calls
`prompt_service.increment_usage_by_id`, `prompt_service.track_failure_by_id`
and `prompt_service.track_failure`; attribute lookup on the `prompt_service`
instance resolves only methods defined by `PromptService`
(`src/services/prompt_service.py`), and raises `AttributeError` otherwise. -/

/-- The methods the `PromptService` class defines. -/

def promptServiceMethods : List String :=
  ["create_prompt", "update_prompt", "get_prompt", "get_prompt_with_thumbnail",
   "get_recent_prompts", "get_popular_prompts", "search_prompts", "get_thumbnail",
   "get_stats", "delete_prompt", "exists_by_text", "attempt_save_prompt",
   "cleanup_old_prompts", "_generate_thumbnail", "_prompt_to_response"]

/-- Python attribute lookup on the `prompt_service` instance. -/

def promptServiceLookup (name : String) : Except PyError Unit :=
  if promptServiceMethods.contains name then .ok ()
  else .error (.attributeError name)

/-- The body of the success-path tracking `try` block in `generate_image`
(`generate.py` lines 134–144): with a truthy `prompt_id`, call
`prompt_service.increment_usage_by_id(prompt_id)` — whose attribute lookup
raises before any database work — else fall back to text-keyed tracking. -/

def generateTrackUsageCore (sha : PyStr → String) (db : DB) (promptId : Option Nat)
    (prompt : PyStr) (modelName : String) (now : Int) : Except PyError DB :=
  if promptId.getD 0 ≠ 0 then
    match promptServiceLookup "increment_usage_by_id" with
    | .error e => .error e
    | .ok _ => .ok db  -- never reached: PromptService defines no such method
  else
    match serviceExistsByText sha db prompt with
    | .error e => .error e
    | .ok true =>
      match serviceUpdatePrompt sha db prompt (some modelName) now with
      | .error e => .error e
      | .ok (db', _) => .ok db'
    | .ok false => .ok db

/-- The tracking block with its `except` clause: failures to track are
logged and swallowed, leaving the store as it was. -/

def generateTrackUsage (sha : PyStr → String) (db : DB) (promptId : Option Nat)
    (prompt : PyStr) (modelName : String) (now : Int) : DB :=
  match generateTrackUsageCore sha db promptId prompt modelName now with
  | .ok db' => db'
  | .error _ => db

/-- The body of the failure-path tracking `try` block in `generate_image`
(`generate.py` lines 166–186): with a truthy `prompt_id`, call
`prompt_service.track_failure_by_id`; else, for truthy prompt text that
exists in the ledger, call `prompt_service.track_failure` — both attribute
lookups raise, since `PromptService` defines neither. -/

def generateTrackFailureCore (sha : PyStr → String) (db : DB) (promptId : Option Nat)
    (prompt : PyStr) (_now : Int) : Except PyError DB :=
  if promptId.getD 0 ≠ 0 then
    match promptServiceLookup "track_failure_by_id" with
    | .error e => .error e
    | .ok _ => .ok db  -- never reached
  else if prompt ≠ [] then
    match serviceExistsByText sha db prompt with
    | .error e => .error e
    | .ok true =>
      match promptServiceLookup "track_failure" with
      | .error e => .error e
      | .ok _ => .ok db  -- never reached
    | .ok false => .ok db
  else .ok db

/-- The failure-tracking block with its `except Exception: pass`. -/

def generateTrackFailure (sha : PyStr → String) (db : DB) (promptId : Option Nat)
    (prompt : PyStr) (now : Int) : DB :=
  match generateTrackFailureCore sha db promptId prompt now with
  | .ok db' => db'
  | .error _ => db

/-! ### Provider factory (C4) -/

/-- The image-generator classes the factory can instantiate. -/

inductive ProviderKind
  | gemini
  | replicate
  | stability
  | huggingface
deriving Repr, DecidableEq

/-- `ImageGeneratorFactory._providers`, in dict insertion order. -/

def imageProviders : List (String × ProviderKind) :=
  [("gemini", .gemini), ("replicate", .replicate),
   ("stability", .stability), ("huggingface", .huggingface)]

/-- The `ValueError` raised for an unknown provider, carrying the name it
was given and the registered names its message lists. -/

structure UnsupportedProviderError where
  provider : PyStr
  available : List String
deriving Repr, DecidableEq

/-- `ImageGeneratorFactory.create` up to adapter construction: lowercase
and trim the name, look it up in the registry, and raise the unsupported-
provider error naming the known set otherwise.  The result designates the
resolved adapter class. -/

def factoryCreate (provider : PyStr) : Except UnsupportedProviderError ProviderKind :=
  match imageProviders.find? (fun p => strToPy p.1 == pyStrip (pyLower provider)) with
  | some p => .ok p.2
  | none => .error ⟨provider, imageProviders.map (·.1)⟩

/-- `ImageGeneratorFactory.get_available_providers`. -/

def get_available_providers : List String := imageProviders.map (·.1)

/-! ### Multi-image degradation (C5) -/

/-- An uploaded file: a filename (possibly absent) and its raw bytes. -/

structure UploadImage where
  filename : Option String := none
  bytes : List Nat := []
deriving Repr, DecidableEq

/-- FastAPI's `HTTPException`, the failure currency of the adapters. -/

structure HTTPException where
  status_code : Nat
  detail : String
deriving Repr, DecidableEq

/-- An adapter call outcome: raw image bytes plus a content type. -/

abbrev GenResult := Except HTTPException (List Nat × String)

/-- `ReplicateImageGenerator.generate_from_multiple_images_and_text`:
an empty list is a 400; otherwise delegate to the single-image entry point
on `image_files[0]`, ignoring the rest.  The single-image call (a vendor
HTTP interaction) is the parameter `genSingle`. -/

def replicate_generate_from_multiple_images_and_text
    (genSingle : UploadImage → PyStr → GenResult)
    (image_files : List UploadImage) (prompt : PyStr) : GenResult :=
  match image_files with
  | [] => .error ⟨400, "At least one image file is required"⟩
  | img :: _ => genSingle img prompt

/-- `HuggingFaceImageGenerator.generate_from_multiple_images_and_text`:
the identical first-image policy. -/

def huggingface_generate_from_multiple_images_and_text
    (genSingle : UploadImage → PyStr → GenResult)
    (image_files : List UploadImage) (prompt : PyStr) : GenResult :=
  match image_files with
  | [] => .error ⟨400, "At least one image file is required"⟩
  | img :: _ => genSingle img prompt

/-! ### Reference image processing (C6) -/

/-- Python `str.lower` restricted to ASCII letters, as applied to file
extensions. -/

def charLowerAscii (c : Char) : Char :=
  if 'A' ≤ c ∧ c ≤ 'Z' then Char.ofNat (c.toNat + 32) else c

def strLowerAscii (s : String) : String := String.mk (s.data.map charLowerAscii)

/-- `pathlib.Path(name).suffix`: within the final path component, the
substring from the last dot, provided that dot is neither the component's
first nor last character; empty otherwise.  (Upload filenames carry no
trailing separators.) -/

def pathSuffix (name : String) : String :=
  let base := (name.data.reverse.takeWhile (fun c => c ≠ '/')).reverse
  if '.' ∈ base then
    let i := base.length - 1 - List.indexOf '.' base.reverse
    if 0 < i ∧ i < base.length - 1 then String.mk (base.drop i) else ""
  else ""

def base64Chars : List Char :=
  "ABCDEFGHIJKLMNOPQRSTUVWXYZabcdefghijklmnopqrstuvwxyz0123456789+/".data

def b64char (i : Nat) : Char := base64Chars.getD i 'A'

/-- `base64.b64encode` over a byte list (RFC 4648, with `=` padding). -/

def base64Encode : List Nat → List Char
  | [] => []
  | [a] => [b64char (a / 4), b64char (a % 4 * 16), '=', '=']
  | [a, b] => [b64char (a / 4), b64char (a % 4 * 16 + b / 16), b64char (b % 16 * 4), '=']
  | a :: b :: c :: rest =>
    b64char (a / 4) :: b64char (a % 4 * 16 + b / 16) ::
      b64char (b % 16 * 4 + c / 64) :: b64char (c % 64) :: base64Encode rest

/-- `content_type_map` inside `process_reference_image`. -/

def content_type_map : List (String × String) :=
  [(".jpg", "image/jpeg"), (".jpeg", "image/jpeg"), (".png", "image/png"),
   (".gif", "image/gif"), (".webp", "image/webp")]

/-- `BaseImageGenerator.process_reference_image`: read the stream's bytes,
derive the content type from the lowercased extension of the filename
(`"reference"` when the filename is absent, `image/jpeg` when the
extension is unknown), base64-encode, and return the data URL. -/

def process_reference_image (image : UploadImage) : String :=
  let original_filename := image.filename.getD "reference"
  let file_extension := strLowerAscii (pathSuffix original_filename)
  let content_type :=
    ((content_type_map.find? (fun p => p.1 == file_extension)).map (·.2)).getD "image/jpeg"
  "data:" ++ content_type ++ ";base64," ++ String.mk (base64Encode image.bytes)

/-- The MIME map exactly as the spec words it: .jpg/.jpeg → image/jpeg,
.png → image/png, .gif → image/gif, .webp → image/webp, and image/jpeg
for every other or missing extension. -/

def mimeForExtensionSpec (ext : String) : String :=
  if ext = ".jpg" ∨ ext = ".jpeg" then "image/jpeg"
  else if ext = ".png" then "image/png"
  else if ext = ".gif" then "image/gif"
  else if ext = ".webp" then "image/webp"
  else "image/jpeg"

example : normalize_prompt (strToPy "A Cat  On A Mat") = strToPy "a cat on a mat" := by
  decide

example : normalize_prompt [0x48, 0x331] = [0x68, 0x331] := by decide

example : normalize_prompt [0x68, 0x331] = [0x1E96] := by decide

/-! ### Idempotence of `normalize_prompt` on the ASCII fragment -/

lemma flatten_map_eq_self {f : Nat → List Nat} :
    ∀ {s : PyStr}, (∀ c ∈ s, f c = [c]) → (s.map f).flatten = s := by
  intro s
  induction s with
  | nil => intro _; simp
  | cons a l ih =>
    intro h
    simp only [List.map_cons, List.flatten_cons, h a (by simp)]
    rw [ih (fun c hc => h c (by simp [hc]))]
    rfl

lemma composeList_eq_self : ∀ {s : PyStr}, (∀ c ∈ s, c ≠ 0x331) → composeList s = s := by
  intro s
  induction s with
  | nil => intro _; rfl
  | cons a l ih =>
    intro h
    match l with
    | [] => rfl
    | b :: rest =>
      have hb : b ≠ 0x331 := h b (by simp)
      have : canonComp a b = none := by
        simp only [canonComp, ite_eq_right_iff]
        intro hab; exact absurd hab.2 hb
      simp only [composeList, this]
      rw [ih (fun c hc => h c (by simp [hc]))]

lemma pyNFKC_eq_self {s : PyStr} (h : ∀ c ∈ s, c < 128) : pyNFKC s = s := by
  unfold pyNFKC
  have hd : (s.map decompChar).flatten = s :=
    flatten_map_eq_self (fun c hc => by
      have := h c hc
      simp only [decompChar, ite_eq_right_iff]
      intro he; omega)
  rw [hd]
  exact composeList_eq_self (fun c hc => by have := h c hc; omega)

lemma pyLower_eq_self {s : PyStr} (h : ∀ c ∈ s, lowerChar c = [c]) : pyLower s = s :=
  flatten_map_eq_self h

lemma lowerChar_ascii_props {c d : Nat} (hc : c < 128) (hd : d ∈ lowerChar c) :
    d < 128 ∧ lowerChar d = [d] := by
  by_cases h1 : 0x41 ≤ c ∧ c ≤ 0x5A
  · have : d = c + 0x20 := by
      simpa [lowerChar, h1] using hd
    subst this
    refine ⟨by omega, ?_⟩
    unfold lowerChar
    rw [if_neg (by omega), if_neg (by omega)]
  · have h2 : c ≠ 0x130 := by omega
    have : d = c := by
      simpa [lowerChar, h1, h2] using hd
    subst this
    refine ⟨hc, ?_⟩
    unfold lowerChar
    rw [if_neg h1, if_neg h2]

lemma mem_pyLower_props {s : PyStr} (h : ∀ c ∈ s, c < 128) :
    ∀ d ∈ pyLower s, d < 128 ∧ lowerChar d = [d] := by
  intro d hd
  unfold pyLower at hd
  rw [List.mem_flatten] at hd
  obtain ⟨l, hl, hdl⟩ := hd
  rw [List.mem_map] at hl
  obtain ⟨c, hcs, rfl⟩ := hl
  exact lowerChar_ascii_props (h c hcs) hdl

lemma mem_dropWhile {p : Nat → Bool} : ∀ {s : PyStr} {c : Nat}, c ∈ s.dropWhile p → c ∈ s := by
  intro s
  induction s with
  | nil => intro c hc; simp at hc
  | cons a l ih =>
    intro c hc
    rw [List.dropWhile_cons] at hc
    by_cases hpa : p a
    · rw [if_pos hpa] at hc
      exact List.mem_cons_of_mem a (ih hc)
    · rw [if_neg hpa] at hc
      exact hc

lemma head?_dropWhile_false {p : Nat → Bool} :
    ∀ {s : PyStr} {c : Nat}, (s.dropWhile p).head? = some c → p c = false := by
  intro s
  induction s with
  | nil => intro c hc; simp at hc
  | cons a l ih =>
    intro c hc
    rw [List.dropWhile_cons] at hc
    by_cases hpa : p a
    · rw [if_pos hpa] at hc
      exact ih hc
    · rw [if_neg hpa] at hc
      simp only [List.head?_cons, Option.some.injEq] at hc
      subst hc
      simpa using hpa

lemma getLast?_dropWhile {p : Nat → Bool} :
    ∀ {s : PyStr}, s.dropWhile p ≠ [] → (s.dropWhile p).getLast? = s.getLast? := by
  intro s
  induction s with
  | nil => intro h; simp at h
  | cons a l ih =>
    intro h
    rw [List.dropWhile_cons] at h ⊢
    by_cases hpa : p a
    · rw [if_pos hpa] at h ⊢
      have hl : l ≠ [] := by
        intro hnil; subst hnil; simp at h
      rw [ih h]
      cases l with
      | nil => exact absurd rfl hl
      | cons b m => rw [List.getLast?_cons_cons]
    · rw [if_neg hpa]

lemma dropWhile_eq_self {p : Nat → Bool} {s : PyStr}
    (h : ∀ c, s.head? = some c → p c = false) : s.dropWhile p = s := by
  cases s with
  | nil => rfl
  | cons a l =>
    rw [List.dropWhile_cons, if_neg]
    simp [h a rfl]

lemma mem_pyStrip {s : PyStr} {c : Nat} (hc : c ∈ pyStrip s) : c ∈ s := by
  unfold pyStrip at hc
  rw [List.mem_reverse] at hc
  have := mem_dropWhile hc
  rw [List.mem_reverse] at this
  exact mem_dropWhile this

lemma pyStrip_head {s : PyStr} {c : Nat} (hc : (pyStrip s).head? = some c) :
    isPySpace c = false := by
  unfold pyStrip at hc
  rw [List.head?_reverse] at hc
  have hne : ((s.dropWhile fun c => isPySpace c).reverse.dropWhile fun c => isPySpace c) ≠ [] := by
    intro hnil; rw [hnil] at hc; simp at hc
  rw [getLast?_dropWhile hne, List.getLast?_reverse] at hc
  exact head?_dropWhile_false hc

lemma pyStrip_getLast {s : PyStr} {c : Nat} (hc : (pyStrip s).getLast? = some c) :
    isPySpace c = false := by
  unfold pyStrip at hc
  rw [List.getLast?_reverse] at hc
  exact head?_dropWhile_false hc

lemma pyStrip_eq_self {s : PyStr}
    (hh : ∀ c, s.head? = some c → isPySpace c = false)
    (hl : ∀ c, s.getLast? = some c → isPySpace c = false) : pyStrip s = s := by
  unfold pyStrip
  rw [dropWhile_eq_self hh, dropWhile_eq_self (by
    intro c hc
    rw [List.head?_reverse] at hc
    exact hl c hc), List.reverse_reverse]

lemma collapseAux_mem :
    ∀ (b : Bool) (s : PyStr) (c : Nat), c ∈ collapseAux b s →
      (c ∈ s ∧ isPySpace c = false) ∨ c = 0x20 := by
  intro b s
  induction s generalizing b with
  | nil => intro c hc; simp [collapseAux] at hc
  | cons a l ih =>
    intro c hc
    unfold collapseAux at hc
    by_cases hwa : isPySpace a
    · rw [if_pos hwa] at hc
      by_cases hb : b
      · subst hb
        rw [if_pos rfl] at hc
        rcases ih true c hc with ⟨h1, h2⟩ | h
        · exact Or.inl ⟨List.mem_cons_of_mem a h1, h2⟩
        · exact Or.inr h
      · simp only [Bool.not_eq_true] at hb
        subst hb
        rw [if_neg (by simp)] at hc
        rcases List.mem_cons.mp hc with rfl | hc'
        · exact Or.inr rfl
        · rcases ih true c hc' with ⟨h1, h2⟩ | h
          · exact Or.inl ⟨List.mem_cons_of_mem a h1, h2⟩
          · exact Or.inr h
    · rw [if_neg hwa] at hc
      rcases List.mem_cons.mp hc with rfl | hc'
      · exact Or.inl ⟨List.mem_cons_self _ _, by simpa using hwa⟩
      · rcases ih false c hc' with ⟨h1, h2⟩ | h
        · exact Or.inl ⟨List.mem_cons_of_mem a h1, h2⟩
        · exact Or.inr h

lemma head?_collapseAux_true {s : PyStr} :
    ∀ {c : Nat}, (collapseAux true s).head? = some c → isPySpace c = false := by
  induction s with
  | nil => intro c hc; simp [collapseAux] at hc
  | cons a l ih =>
    intro c hc
    unfold collapseAux at hc
    by_cases hwa : isPySpace a
    · rw [if_pos hwa, if_pos rfl] at hc
      exact ih hc
    · rw [if_neg hwa] at hc
      simp only [List.head?_cons, Option.some.injEq] at hc
      subst hc
      simpa using hwa

lemma chain'_collapseAux :
    ∀ (b : Bool) (s : PyStr),
      List.Chain' (fun x y => ¬(isPySpace x = true ∧ isPySpace y = true)) (collapseAux b s) := by
  intro b s
  induction s generalizing b with
  | nil => simp [collapseAux]
  | cons a l ih =>
    unfold collapseAux
    by_cases hwa : isPySpace a
    · rw [if_pos hwa]
      by_cases hb : b
      · subst hb; rw [if_pos rfl]; exact ih true
      · simp only [Bool.not_eq_true] at hb
        subst hb
        rw [if_neg (by simp)]
        rw [List.chain'_cons']
        refine ⟨?_, ih true⟩
        intro y hy
        have := head?_collapseAux_true (s := l) (c := y)
        intro hcontra
        rw [this (by simpa using hy)] at hcontra
        exact absurd hcontra.2 (by simp)
    · rw [if_neg hwa]
      rw [List.chain'_cons']
      refine ⟨?_, ih false⟩
      intro y _ hcontra
      rw [hcontra.1] at hwa
      exact hwa rfl

lemma head?_collapseAux_false {s : PyStr}
    (h : ∀ c, s.head? = some c → isPySpace c = false) :
    ∀ c, (collapseAux false s).head? = some c → isPySpace c = false := by
  cases s with
  | nil => intro c hc; simp [collapseAux] at hc
  | cons a l =>
    intro c hc
    unfold collapseAux at hc
    rw [if_neg (by simp [h a rfl])] at hc
    simp only [List.head?_cons, Option.some.injEq] at hc
    subst hc
    exact h _ rfl

lemma getLast?_collapseAux :
    ∀ (s : PyStr) (b : Bool) {d : Nat}, s.getLast? = some d → isPySpace d = false →
      (collapseAux b s).getLast? = some d := by
  intro s
  induction s with
  | nil => intro b d hd _; simp at hd
  | cons a l ih =>
    intro b d hd hws
    cases l with
    | nil =>
      simp only [List.getLast?_singleton, Option.some.injEq] at hd
      subst hd
      unfold collapseAux
      rw [if_neg (by simp [hws])]
      simp [collapseAux]
    | cons x m =>
      rw [List.getLast?_cons_cons] at hd
      have htail : ∀ b', (collapseAux b' (x :: m)).getLast? = some d := fun b' => ih b' hd hws
      have hne : ∀ b', collapseAux b' (x :: m) ≠ [] := by
        intro b' hnil
        have := htail b'
        rw [hnil] at this
        simp at this
      unfold collapseAux
      by_cases hwa : isPySpace a
      · rw [if_pos hwa]
        by_cases hb : b
        · subst hb; rw [if_pos rfl]; exact htail true
        · simp only [Bool.not_eq_true] at hb
          subst hb
          rw [if_neg (by simp)]
          cases hcoll : collapseAux true (x :: m) with
          | nil => exact absurd hcoll (hne true)
          | cons z zs =>
            rw [List.getLast?_cons_cons, ← hcoll]
            exact htail true
      · rw [if_neg hwa]
        cases hcoll : collapseAux false (x :: m) with
        | nil => exact absurd hcoll (hne false)
        | cons z zs =>
          rw [List.getLast?_cons_cons, ← hcoll]
          exact htail false

lemma collapseAux_eq_self :
    ∀ {s : PyStr},
      (∀ c ∈ s, isPySpace c = true → c = 0x20) →
      List.Chain' (fun x y => ¬(isPySpace x = true ∧ isPySpace y = true)) s →
      collapseAux false s = s := by
  intro s
  induction s with
  | nil => intro _ _; rfl
  | cons a l ih =>
    intro h hch
    rw [List.chain'_cons'] at hch
    unfold collapseAux
    by_cases hwa : isPySpace a
    · have ha20 : a = 0x20 := h a (List.mem_cons_self _ _) hwa
      rw [if_pos hwa, if_neg (by simp)]
      have hl : collapseAux false l = l :=
        ih (fun c hc => h c (List.mem_cons_of_mem a hc)) hch.2
      have : collapseAux true l = collapseAux false l := by
        cases l with
        | nil => rfl
        | cons x m =>
          have hx : isPySpace x = false := by
            have := hch.1 x (by simp)
            by_contra hxc
            simp only [Bool.not_eq_false] at hxc
            exact this ⟨hwa, hxc⟩
          unfold collapseAux
          rw [if_neg (by simp [hx]), if_neg (by simp [hx])]
      rw [this, hl, ha20]
    · rw [if_neg hwa]
      rw [ih (fun c hc => h c (List.mem_cons_of_mem a hc)) hch.2]

lemma normalize_prompt_fix {s : PyStr} (h : ∀ c ∈ s, c < 128) :
    normalize_prompt (normalize_prompt s) = normalize_prompt s := by
  by_cases hs : s = []
  · subst hs; rfl
  set y := normalize_prompt s with hy
  by_cases hynil : y = []
  · rw [hynil]; rfl
  have hNs : pyNFKC s = s := pyNFKC_eq_self h
  have hy_def : y = collapseAux false (pyStrip (pyLower s)) := by
    rw [hy]; unfold normalize_prompt collapseWS; rw [if_neg hs, hNs]
  -- character-level facts about y
  have ht_props : ∀ d ∈ pyLower s, d < 128 ∧ lowerChar d = [d] := mem_pyLower_props h
  have hu_props : ∀ d ∈ pyStrip (pyLower s), d < 128 ∧ lowerChar d = [d] :=
    fun d hd => ht_props d (mem_pyStrip hd)
  have hy_props : ∀ c ∈ y, c < 128 ∧ lowerChar c = [c] := by
    intro c hc
    rw [hy_def] at hc
    rcases collapseAux_mem false _ c hc with ⟨h1, _⟩ | rfl
    · exact hu_props c h1
    · refine ⟨by norm_num, ?_⟩
      unfold lowerChar
      rw [if_neg (by omega), if_neg (by omega)]
  have hy_ws20 : ∀ c ∈ y, isPySpace c = true → c = 0x20 := by
    intro c hc hws
    rw [hy_def] at hc
    rcases collapseAux_mem false _ c hc with ⟨_, h2⟩ | rfl
    · rw [hws] at h2; exact absurd h2 (by simp)
    · rfl
  have hy_chain : List.Chain' (fun x z => ¬(isPySpace x = true ∧ isPySpace z = true)) y := by
    rw [hy_def]; exact chain'_collapseAux false _
  have hy_head : ∀ c, y.head? = some c → isPySpace c = false := by
    intro c hc
    rw [hy_def] at hc
    exact head?_collapseAux_false (fun d hd => pyStrip_head hd) c hc
  have hy_last : ∀ c, y.getLast? = some c → isPySpace c = false := by
    intro c hc
    rw [hy_def] at hc
    have hu_ne : pyStrip (pyLower s) ≠ [] := by
      intro hnil
      rw [hnil] at hc
      simp [collapseAux] at hc
    obtain ⟨d, hd⟩ : ∃ d, (pyStrip (pyLower s)).getLast? = some d := by
      cases hgl : (pyStrip (pyLower s)).getLast? with
      | none => exact absurd (List.getLast?_eq_none_iff.mp hgl) hu_ne
      | some d => exact ⟨d, rfl⟩
    have hdws : isPySpace d = false := pyStrip_getLast hd
    have := getLast?_collapseAux _ false hd hdws
    rw [this] at hc
    injection hc with hc
    subst hc
    exact hdws
  -- second pass is the identity on y
  unfold normalize_prompt
  rw [if_neg hynil]
  rw [pyNFKC_eq_self (fun c hc => (hy_props c hc).1)]
  rw [pyLower_eq_self (fun c hc => (hy_props c hc).2)]
  rw [pyStrip_eq_self hy_head hy_last]
  show collapseAux false y = y
  exact collapseAux_eq_self hy_ws20 hy_chain

/-- C3: the claim that `normalize_prompt` is idempotent for every string
fails on the code.  Counterexample: P = U+0048 U+0331 ("H" followed by
COMBINING MACRON BELOW).  There is no precomposed capital H-with-line-below,
so NFKC leaves P unchanged and lowercasing yields U+0068 U+0331; a second
normalization pass canonically composes that pair to U+1E96, a different
string. -/

theorem normalize_prompt_not_idempotent_counterexample :
    normalize_prompt (normalize_prompt [0x48, 0x331]) ≠ normalize_prompt [0x48, 0x331] := by
  decide

/-- C3 (amended): `normalize_prompt` is idempotent on ASCII prompts, and
consequently hashing a normalized ASCII prompt agrees with hashing its
double normalization; on full Unicode idempotence fails (see the
counterexample above). -/

theorem normalize_prompt_idempotent_ascii (sha : PyStr → String) (P : PyStr)
    (h : ∀ c ∈ P, c < 128) :
    normalize_prompt (normalize_prompt P) = normalize_prompt P ∧
    hash_prompt sha (normalize_prompt P) =
      hash_prompt sha (normalize_prompt (normalize_prompt P)) := by
  refine ⟨normalize_prompt_fix h, ?_⟩
  unfold hash_prompt
  simp only [normalize_prompt_fix h]

/-- Witness for the amended C3 theorem at the spec's own example prompt. -/

theorem normalize_prompt_idempotent_ascii_witness :
    (∀ c ∈ strToPy "A Cat  On A Mat", c < 128) ∧
    (normalize_prompt (normalize_prompt (strToPy "A Cat  On A Mat")) =
        normalize_prompt (strToPy "A Cat  On A Mat") ∧
      hash_prompt (fun _ => "") (normalize_prompt (strToPy "A Cat  On A Mat")) =
        hash_prompt (fun _ => "")
          (normalize_prompt (normalize_prompt (strToPy "A Cat  On A Mat")))) :=
  ⟨by decide, normalize_prompt_idempotent_ascii (fun _ => "") _ (by decide)⟩

/-! ### Theorems about the ledger -/

lemma list_any_false {l : List Prompt} {p : Prompt → Bool}
    (h : ∀ x ∈ l, p x = false) : l.any p = false := by
  simp only [List.any_eq_false]
  intro x hx
  simp [h x hx]

lemma list_filter_nil {l : List Prompt} {p : Prompt → Bool}
    (h : ∀ x ∈ l, p x = false) : l.filter p = [] := by
  rw [List.filter_eq_nil_iff]
  intro x hx
  simp [h x hx]

lemma list_find?_none {l : List Prompt} {p : Prompt → Bool}
    (h : ∀ x ∈ l, p x = false) : l.find? p = none := by
  rw [List.find?_eq_none]
  intro x hx
  simp [h x hx]

lemma list_map_self {l : List Prompt} {f : Prompt → Prompt}
    (h : ∀ x ∈ l, f x = x) : l.map f = l := by
  conv_rhs => rw [← List.map_id l]
  exact List.map_congr_left h

lemma postInit_hash {sha : PyStr → String} {p : Prompt}
    (ht : p.prompt_text ≠ []) (hh : p.prompt_hash = "") :
    postInit sha p = { p with prompt_hash := hash_prompt sha p.prompt_text } := by
  unfold postInit
  rw [if_pos ⟨ht, hh⟩]

/-- Output shape of `PromptService.create_prompt` on a healthy connection:
one row appended, carrying the auto-generated hash, the requested usage
count, and the fresh id. -/

lemma attachThumbnail_fields (tg : List Nat → Option ThumbResult) (p0 : Prompt)
    (d : Option (List Nat)) :
    (attachThumbnail tg p0 d).prompt_hash = p0.prompt_hash ∧
    (attachThumbnail tg p0 d).total_uses = p0.total_uses ∧
    (attachThumbnail tg p0 d).id = p0.id := by
  unfold attachThumbnail
  cases d with
  | none => exact ⟨rfl, rfl, rfl⟩
  | some bytes =>
    dsimp only
    by_cases hb : bytes = []
    · rw [if_pos hb]
      exact ⟨rfl, rfl, rfl⟩
    · rw [if_neg hb]
      cases tg bytes with
      | none => exact ⟨rfl, rfl, rfl⟩
      | some t => exact ⟨rfl, rfl, rfl⟩

lemma serviceCreatePrompt_ok (sha : PyStr → String) (tg : List Nat → Option ThumbResult)
    (db : DB) (text : PyStr) (model : Option String) (imageData : Option (List Nat))
    (totalUses : Nat) (now : Int) (hconn : db.connOk = true) (ht : text ≠ []) :
    ∃ saved : Prompt,
      serviceCreatePrompt sha tg db text model imageData totalUses now =
        .ok ({ db with rows := db.rows ++ [saved], nextId := db.nextId + 1 }, saved) ∧
      saved.prompt_hash = hash_prompt sha text ∧
      saved.total_uses = totalUses ∧
      saved.id = some db.nextId := by
  obtain ⟨hf1, hf2, _⟩ := attachThumbnail_fields tg
    (postInit sha { prompt_text := text, model := model, total_uses := totalUses }) imageData
  unfold serviceCreatePrompt repoCreate
  rw [hconn]
  simp only [Bool.true_eq_false, if_false]
  refine ⟨_, rfl, ?_, ?_, rfl⟩
  · dsimp only
    rw [hf1, postInit_hash ht rfl]
  · dsimp only
    rw [hf2, postInit_hash ht rfl]

/-- C2: the dedup invariant.  Saving a fresh prompt text and then any text
with the same normalization yields exactly one ledger record for that
hash: the first call inserts it with `total_uses = 1`, the second call
increments the same record (same id) to `total_uses = 2`, and the row
count does not grow on the second call. -/

theorem attempt_save_prompt_dedup
    (sha : PyStr → String) (tg : List Nat → Option ThumbResult) (gm : String)
    (db : DB) (t1 t2 : PyStr) (thumb1 thumb2 : Option (List Nat)) (now1 now2 : Int)
    (hconn : db.connOk = true)
    (ht1 : t1 ≠ []) (ht2 : t2 ≠ [])
    (hnorm : normalize_prompt t1 = normalize_prompt t2)
    (hfresh : ∀ r ∈ db.rows, rowMatchHash (hash_prompt sha t1) r = false) :
    ∃ db1 p1 db2 p2,
      attempt_save_prompt sha tg gm db t1 thumb1 now1 = (db1, some p1) ∧
      p1.prompt_hash = hash_prompt sha t1 ∧ p1.total_uses = 1 ∧
      (db1.rows.filter (rowMatchHash (hash_prompt sha t1))).length = 1 ∧
      attempt_save_prompt sha tg gm db1 t2 thumb2 now2 = (db2, some p2) ∧
      p2.prompt_hash = hash_prompt sha t1 ∧ p2.total_uses = 2 ∧ p2.id = p1.id ∧
      (db2.rows.filter (rowMatchHash (hash_prompt sha t1))).length = 1 ∧
      db2.rows.length = db1.rows.length := by
  have hh2 : hash_prompt sha t2 = hash_prompt sha t1 := by
    unfold hash_prompt
    rw [hnorm]
  -- first call: the text is unseen, so the create path runs
  have hex1 : serviceExistsByText sha db t1 = .ok false := by
    unfold serviceExistsByText repoExistsByPrompt
    rw [postInit_hash ht1 rfl, hconn]
    simp only [Bool.true_eq_false, if_false]
    rw [list_any_false hfresh]
  obtain ⟨saved, hcreate, hhash, huses, hid⟩ :=
    serviceCreatePrompt_ok sha tg db t1 (some gm) thumb1 1 now1 hconn ht1
  have hcall1 : attempt_save_prompt sha tg gm db t1 thumb1 now1 =
      ({ db with rows := db.rows ++ [saved], nextId := db.nextId + 1 }, some saved) := by
    unfold attempt_save_prompt attemptSavePromptCore
    rw [hex1, hcreate]
  set db1 : DB := { db with rows := db.rows ++ [saved], nextId := db.nextId + 1 } with hdb1
  have hsavedMatch : rowMatchHash (hash_prompt sha t1) saved = true := by
    simp [rowMatchHash, hhash]
  have hfilter1 : (db1.rows.filter (rowMatchHash (hash_prompt sha t1))).length = 1 := by
    rw [hdb1]
    simp only [List.filter_append, list_filter_nil hfresh]
    simp [hsavedMatch]
  -- second call: the hash now exists, so the update path runs
  have hex2 : serviceExistsByText sha db1 t2 = .ok true := by
    unfold serviceExistsByText repoExistsByPrompt
    rw [postInit_hash ht2 rfl]
    simp only [hdb1]
    rw [hconn]  -- db1.connOk reduces to db.connOk
    simp only [Bool.true_eq_false, if_false]
    simp only [List.any_append]
    simp [hh2, hsavedMatch]
  set bump : Prompt → Prompt := fun r =>
    if rowMatchHash (hash_prompt sha t2) r then
      { r with total_uses := r.total_uses + 1, last_used_at := some now2 }
    else r with hbump
  have hbumpSaved : bump saved =
      { saved with total_uses := saved.total_uses + 1, last_used_at := some now2 } := by
    rw [hbump]
    simp only [hh2, hsavedMatch, if_true]
  have hupd : repoUpdate db1 (postInit sha { prompt_text := t2, model := some gm }) now2 =
      .ok ({ db1 with rows := db.rows ++ [bump saved] }, bump saved) := by
    unfold repoUpdate
    rw [postInit_hash ht2 rfl]
    simp only [hdb1]
    rw [hconn]
    simp only [Bool.true_eq_false, if_false]
    have hany : (db.rows ++ [saved]).any (rowMatchHash (hash_prompt sha t2)) = true := by
      simp only [List.any_append]
      simp [hh2, hsavedMatch]
    rw [if_pos hany]
    have hmap : (db.rows ++ [saved]).map bump = db.rows ++ [bump saved] := by
      rw [List.map_append]
      congr 1
      apply list_map_self
      intro x hx
      rw [hbump]
      simp [hh2, hfresh x hx]
    rw [show ((db.rows ++ [saved]).map fun r =>
        if rowMatchHash (hash_prompt sha t2) r then
          { r with total_uses := r.total_uses + 1, last_used_at := some now2 }
        else r) = (db.rows ++ [saved]).map bump from rfl]
    rw [hmap]
    have hfind : (db.rows ++ [bump saved]).find? (rowMatchHash (hash_prompt sha t2)) =
        some (bump saved) := by
      rw [List.find?_append]
      rw [list_find?_none (fun x hx => by simp [hh2, hfresh x hx])]
      simp only [Option.none_or]
      rw [List.find?]
      rw [hbumpSaved]
      simp [rowMatchHash, hh2, hhash]
    rw [hfind]
  have hcall2 : attempt_save_prompt sha tg gm db1 t2 thumb2 now2 =
      ({ db1 with rows := db.rows ++ [bump saved] }, some (bump saved)) := by
    unfold attempt_save_prompt attemptSavePromptCore
    rw [hex2]
    unfold serviceUpdatePrompt
    have hex2' : repoExistsByPrompt db1 (postInit sha { prompt_text := t2, model := some gm }) =
        .ok true := by
      unfold repoExistsByPrompt
      rw [postInit_hash ht2 rfl]
      simp only [hdb1]
      rw [hconn]
      simp only [Bool.true_eq_false, if_false]
      simp only [List.any_append]
      simp [hh2, hsavedMatch]
    rw [hex2']
    dsimp only
    rw [hupd]
  refine ⟨db1, saved, { db1 with rows := db.rows ++ [bump saved] }, bump saved,
    hcall1, hhash, huses, hfilter1, hcall2, ?_, ?_, ?_, ?_, ?_⟩
  · rw [hbumpSaved]; exact hhash
  · rw [hbumpSaved]; simp [huses]
  · rw [hbumpSaved]
  · simp only [List.filter_append, list_filter_nil hfresh]
    have : rowMatchHash (hash_prompt sha t1) (bump saved) = true := by
      rw [hbumpSaved]
      simp [rowMatchHash, hhash]
    simp [this]
  · simp only [hdb1]
    simp

/-- C7: `attempt_save_prompt` never raises.  Whenever the body of its
`try` block (existence check, update, or create) raises any error, the
caught call returns `none` and leaves the store untouched. -/

theorem attempt_save_prompt_never_raises
    (sha : PyStr → String) (tg : List Nat → Option ThumbResult) (gm : String)
    (db : DB) (text : PyStr) (thumb : Option (List Nat)) (now : Int) (e : PyError)
    (h : attemptSavePromptCore sha tg gm db text thumb now = .error e) :
    attempt_save_prompt sha tg gm db text thumb now = (db, none) := by
  unfold attempt_save_prompt
  rw [h]

/-- Witness for C7: a broken connection makes the existence check raise,
and `attempt_save_prompt` returns `none`. -/

theorem attempt_save_prompt_never_raises_witness :
    attemptSavePromptCore (fun _ => "") (fun _ => none) "m"
        { rows := [], nextId := 1, connOk := false } [0x61] none 0 =
      .error .connectionFailure ∧
    attempt_save_prompt (fun _ => "") (fun _ => none) "m"
        { rows := [], nextId := 1, connOk := false } [0x61] none 0 =
      ({ rows := [], nextId := 1, connOk := false }, none) :=
  ⟨rfl, attempt_save_prompt_never_raises (fun _ => "") (fun _ => none) "m"
    { rows := [], nextId := 1, connOk := false } [0x61] none 0 .connectionFailure rfl⟩

/-- C10: `Prompt.__post_init__` auto-hashes only truthy text.  A prompt
built from non-empty text carries the SHA-256 of its normalization; a
prompt built from the empty string keeps the empty hash, which differs
from `hash_prompt ""` (the digest of the normalized empty string), and the
existence check for the empty text therefore queries the empty-string
hash. -/

theorem prompt_empty_text_hash (sha : PyStr → String) (text : PyStr) (db : DB)
    (htext : text ≠ []) (hsha : sha (normalize_prompt []) ≠ "")
    (hconn : db.connOk = true) :
    (postInit sha { prompt_text := text }).prompt_hash = hash_prompt sha text ∧
    (postInit sha { prompt_text := [] }).prompt_hash = "" ∧
    hash_prompt sha [] = sha (normalize_prompt []) ∧
    (postInit sha { prompt_text := [] }).prompt_hash ≠ hash_prompt sha [] ∧
    serviceExistsByText sha db [] = .ok (db.rows.any (rowMatchHash "")) := by
  have hph : (postInit sha { prompt_text := [] } : Prompt).prompt_hash = "" := by
    unfold postInit
    rw [if_neg (by simp)]
  refine ⟨?_, hph, rfl, ?_, ?_⟩
  · rw [postInit_hash htext rfl]
  · rw [hph]
    simpa [hash_prompt] using fun hcontra => hsha hcontra.symm
  · unfold serviceExistsByText repoExistsByPrompt
    rw [hph, hconn]
    simp only [Bool.true_eq_false, if_false]

lemma opBump_fields (op : LedgerOp) (now : Int) (r : Prompt) :
    (opBump op now r).prompt_hash = r.prompt_hash ∧
    (opBump op now r).id = r.id ∧
    (opBump op now r).total_uses = r.total_uses + (if opIsUse op then 1 else 0) ∧
    (opBump op now r).total_fails = r.total_fails + (if opIsUse op then 0 else 1) := by
  cases op <;> exact ⟨rfl, rfl, rfl, rfl⟩

lemma opMatches_bump (op op' : LedgerOp) (now : Int) (r : Prompt) :
    opMatches op (opBump op' now r) = opMatches op r := by
  obtain ⟨h1, h2, -, -⟩ := opBump_fields op' now r
  cases op <;> simp [opMatches, rowMatchHash, rowMatchId, h1, h2]

/-- Each single ledger operation either leaves the table unchanged or maps
every row, touching exactly the rows its WHERE clause matches. -/

lemma applyLedgerOp_shape (db : DB) (op : LedgerOp) (now : Int) :
    ((applyLedgerOp db op now).rows = db.rows ∨
      (applyLedgerOp db op now).rows =
        db.rows.map fun r => if opMatches op r then opBump op now r else r) ∧
    (applyLedgerOp db op now).connOk = db.connOk ∧
    (db.connOk = true → db.rows.any (opMatches op) = true →
      (applyLedgerOp db op now).rows =
        db.rows.map fun r => if opMatches op r then opBump op now r else r) := by
  cases op with
  | update h =>
    unfold applyLedgerOp repoUpdate
    dsimp only
    by_cases hc : db.connOk = false
    · rw [if_pos hc]
      exact ⟨Or.inl rfl, rfl, fun hconn _ => absurd hc (by rw [hconn]; simp)⟩
    · rw [if_neg hc]
      by_cases hany : db.rows.any (rowMatchHash h) = true
      · rw [if_pos hany]
        cases hfind : (db.rows.map fun r =>
            if rowMatchHash h r then
              { r with total_uses := r.total_uses + 1, last_used_at := some now }
            else r).find? (rowMatchHash h) with
        | some row => exact ⟨Or.inr rfl, rfl, fun _ _ => rfl⟩
        | none =>
          exfalso
          rw [List.find?_eq_none] at hfind
          rcases List.any_eq_true.mp hany with ⟨r0, hr0mem, hr0⟩
          have hmem' : opBump (.update h) now r0 ∈ db.rows.map fun r =>
              if rowMatchHash h r then
                { r with total_uses := r.total_uses + 1, last_used_at := some now }
              else r := by
            rw [List.mem_map]
            refine ⟨r0, hr0mem, ?_⟩
            rw [if_pos hr0]
            rfl
          exact hfind _ hmem' hr0
      · rw [if_neg hany]
        exact ⟨Or.inl rfl, rfl, fun _ hanyt => absurd hanyt hany⟩
  | incUsageById pid =>
    unfold applyLedgerOp repoIncrementUsageById
    dsimp only
    by_cases hc : db.connOk = false
    · rw [if_pos hc]
      exact ⟨Or.inl rfl, rfl, fun hconn _ => absurd hc (by rw [hconn]; simp)⟩
    · rw [if_neg hc]
      by_cases hany : db.rows.any (rowMatchId pid) = true
      · rw [if_pos hany]
        exact ⟨Or.inr rfl, rfl, fun _ _ => rfl⟩
      · rw [if_neg hany]
        exact ⟨Or.inl rfl, rfl, fun _ hanyt => absurd hanyt hany⟩
  | incFailuresById pid =>
    unfold applyLedgerOp repoIncrementFailuresById
    dsimp only
    by_cases hc : db.connOk = false
    · rw [if_pos hc]
      exact ⟨Or.inl rfl, rfl, fun hconn _ => absurd hc (by rw [hconn]; simp)⟩
    · rw [if_neg hc]
      by_cases hany : db.rows.any (rowMatchId pid) = true
      · rw [if_pos hany]
        exact ⟨Or.inr rfl, rfl, fun _ _ => rfl⟩
      · rw [if_neg hany]
        exact ⟨Or.inl rfl, rfl, fun _ hanyt => absurd hanyt hany⟩
  | incFailuresByHash h =>
    unfold applyLedgerOp repoIncrementFailures
    dsimp only
    by_cases hc : db.connOk = false
    · rw [if_pos hc]
      exact ⟨Or.inl rfl, rfl, fun hconn _ => absurd hc (by rw [hconn]; simp)⟩
    · rw [if_neg hc]
      by_cases hany : db.rows.any (rowMatchHash h) = true
      · rw [if_pos hany]
        exact ⟨Or.inr rfl, rfl, fun _ _ => rfl⟩
      · rw [if_neg hany]
        exact ⟨Or.inl rfl, rfl, fun _ hanyt => absurd hanyt hany⟩

lemma applyLedgerOp_mono (db : DB) (op : LedgerOp) (now : Int) (i : Nat) (r : Prompt)
    (hget : db.rows[i]? = some r) :
    ∃ r', (applyLedgerOp db op now).rows[i]? = some r' ∧
      r.total_uses ≤ r'.total_uses ∧ r.total_fails ≤ r'.total_fails := by
  obtain ⟨hshape, -, -⟩ := applyLedgerOp_shape db op now
  rcases hshape with heq | heq
  · exact ⟨r, by rw [heq, hget], le_refl _, le_refl _⟩
  · refine ⟨if opMatches op r then opBump op now r else r, ?_, ?_, ?_⟩
    · rw [heq, List.getElem?_map, hget]
      rfl
    · by_cases hm : opMatches op r = true
      · rw [if_pos hm]
        obtain ⟨-, -, h3, -⟩ := opBump_fields op now r
        omega
      · rw [if_neg hm]
    · by_cases hm : opMatches op r = true
      · rw [if_pos hm]
        obtain ⟨-, -, -, h4⟩ := opBump_fields op now r
        omega
      · rw [if_neg hm]

lemma applyLedgerOp_matched (db : DB) (op : LedgerOp) (now : Int) (i : Nat) (r : Prompt)
    (hconn : db.connOk = true) (hget : db.rows[i]? = some r)
    (hmatch : opMatches op r = true) :
    (applyLedgerOp db op now).rows[i]? = some (opBump op now r) ∧
    (applyLedgerOp db op now).connOk = true := by
  have hmem : r ∈ db.rows := by
    obtain ⟨hlt, hgeteq⟩ := List.getElem?_eq_some_iff.mp hget
    exact hgeteq ▸ List.getElem_mem hlt
  have hanyop : db.rows.any (opMatches op) = true :=
    List.any_eq_true.mpr ⟨r, hmem, hmatch⟩
  obtain ⟨-, hconn', hmap⟩ := applyLedgerOp_shape db op now
  refine ⟨?_, by rw [hconn', hconn]⟩
  rw [hmap hconn hanyop, List.getElem?_map, hget]
  simp [hmatch]

/-- C8: counters are monotone, and additively exact for targeted runs.
For any operation sequence a surviving row's counters never decrease; and
when the connection is healthy and every operation targets the given row,
the final counters are exactly the initial ones plus the number of usage
increments and failure increments respectively, independent of
interleaving order. -/

theorem ledger_counters_monotone_and_additive
    (db : DB) (ops : List (LedgerOp × Int)) (i : Nat) (r : Prompt)
    (hget : db.rows[i]? = some r) :
    (∃ r', (applyLedgerOps db ops).rows[i]? = some r' ∧
        r.total_uses ≤ r'.total_uses ∧ r.total_fails ≤ r'.total_fails) ∧
    (db.connOk = true → (∀ p ∈ ops, opMatches p.1 r = true) →
      ∃ r', (applyLedgerOps db ops).rows[i]? = some r' ∧
        r'.total_uses = r.total_uses + countUses ops ∧
        r'.total_fails = r.total_fails + countFails ops) := by
  induction ops generalizing db r with
  | nil =>
    refine ⟨⟨r, hget, le_refl _, le_refl _⟩, fun _ _ => ⟨r, hget, ?_, ?_⟩⟩
    · simp [countUses]
    · simp [countFails]
  | cons p rest ih =>
    obtain ⟨op, now⟩ := p
    constructor
    · obtain ⟨r1, hget1, hu1, hf1⟩ := applyLedgerOp_mono db op now i r hget
      obtain ⟨⟨r', hget', hu', hf'⟩, -⟩ := ih (applyLedgerOp db op now) r1 hget1
      exact ⟨r', by simpa [applyLedgerOps] using hget', le_trans hu1 hu', le_trans hf1 hf'⟩
    · intro hconn hall
      have hmatch : opMatches op r = true := hall (op, now) (by simp)
      obtain ⟨hget1, hconn1⟩ := applyLedgerOp_matched db op now i r hconn hget hmatch
      have hall1 : ∀ p ∈ rest, opMatches p.1 (opBump op now r) = true := by
        intro p hp
        rw [opMatches_bump]
        exact hall p (by simp [hp])
      obtain ⟨-, hcount⟩ := ih (applyLedgerOp db op now) (opBump op now r) hget1
      obtain ⟨r', hget', hu', hf'⟩ := hcount hconn1 hall1
      obtain ⟨-, -, hbu, hbf⟩ := opBump_fields op now r
      refine ⟨r', by simpa [applyLedgerOps] using hget', ?_, ?_⟩
      · rw [hu', hbu]
        have : countUses ((op, now) :: rest) =
            (if opIsUse op then 1 else 0) + countUses rest := by
          simp only [countUses, List.filter_cons]
          by_cases hiu : opIsUse op = true
          · simp [hiu]
            omega
          · simp only [Bool.not_eq_true] at hiu
            simp [hiu]
        omega
      · rw [hf', hbf]
        have : countFails ((op, now) :: rest) =
            (if opIsUse op then 0 else 1) + countFails rest := by
          simp only [countFails, List.filter_cons]
          by_cases hiu : opIsUse op = true
          · simp [hiu]
          · simp only [Bool.not_eq_true] at hiu
            simp [hiu]
            omega
        omega

/-- Witness for C8 at a one-row table and a concrete interleaving of two
usage increments and one failure increment. -/

theorem ledger_counters_witness :
    c8Db.rows[0]? = some c8Row ∧ c8Db.connOk = true ∧
    (∀ p ∈ c8Ops, opMatches p.1 c8Row = true) ∧
    (∃ r', (applyLedgerOps c8Db c8Ops).rows[0]? = some r' ∧
        r'.total_uses = c8Row.total_uses + countUses c8Ops ∧
        r'.total_fails = c8Row.total_fails + countFails c8Ops) :=
  ⟨rfl, rfl, by decide,
    (ledger_counters_monotone_and_additive c8Db c8Ops 0 c8Row rfl).2 rfl (by decide)⟩

/-! ### Cleanup sweep (C9) -/

/-- C9: `cleanup_old` deletes exactly the thumbnail-less rows whose
`last_used_at` is strictly older than `now - days`, and returns their
count.  A thumbnail-less row exactly `days` old survives; any strictly
older one is deleted; a row with a thumbnail is never deleted. -/

theorem cleanup_old_boundary (db : DB) (days : Nat) (now : Int)
    (hconn : db.connOk = true) :
    ∃ n db', repoCleanupOld db days now = .ok (n, db') ∧
      db'.rows = db.rows.filter (fun r => !(cleanupShouldDelete now days r)) ∧
      n = (db.rows.filter (cleanupShouldDelete now days)).length ∧
      (∀ r ∈ db.rows, r.thumbnail_data = none →
        r.last_used_at = some (now - (days : Int) * microsecondsPerDay) →
        r ∈ db'.rows) ∧
      (∀ r ∈ db.rows, r.thumbnail_data = none → ∀ t, r.last_used_at = some t →
        t < now - (days : Int) * microsecondsPerDay → r ∉ db'.rows) ∧
      (∀ r ∈ db.rows, r.thumbnail_data ≠ none → r ∈ db'.rows) := by
  have hstep : repoCleanupOld db days now =
      .ok ((db.rows.filter (cleanupShouldDelete now days)).length,
        { db with rows := db.rows.filter fun r => !(cleanupShouldDelete now days r) }) := by
    unfold repoCleanupOld
    rw [hconn]
    rfl
  refine ⟨_, _, hstep, rfl, rfl, ?_, ?_, ?_⟩
  · intro r hr hthumb hlast
    rw [List.mem_filter]
    refine ⟨hr, ?_⟩
    simp only [cleanupShouldDelete, hthumb, hlast]
    simp
  · intro r hr hthumb t hlast hold hmem
    rw [List.mem_filter] at hmem
    have hkeep := hmem.2
    simp only [cleanupShouldDelete, hthumb, hlast] at hkeep
    have hnot : ¬ (t < now - (days : Int) * microsecondsPerDay) := by
      simpa using hkeep
    exact hnot hold
  · intro r hr hthumb
    rw [List.mem_filter]
    refine ⟨hr, ?_⟩
    simp only [cleanupShouldDelete]
    have : (r.thumbnail_data == none) = false := by
      cases hd : r.thumbnail_data with
      | none => exact absurd hd hthumb
      | some d => rfl
    simp [this]

/-- Witness for C9 at the three-row table above. -/

theorem cleanup_old_boundary_witness :
    c9Db.connOk = true ∧
    (∃ n db', repoCleanupOld c9Db 90 1000 = .ok (n, db') ∧
      db'.rows = c9Db.rows.filter (fun r => !(cleanupShouldDelete 1000 90 r)) ∧
      n = (c9Db.rows.filter (cleanupShouldDelete 1000 90)).length ∧
      (∀ r ∈ c9Db.rows, r.thumbnail_data = none →
        r.last_used_at = some (1000 - (90 : Int) * microsecondsPerDay) →
        r ∈ db'.rows) ∧
      (∀ r ∈ c9Db.rows, r.thumbnail_data = none → ∀ t, r.last_used_at = some t →
        t < 1000 - (90 : Int) * microsecondsPerDay → r ∉ db'.rows) ∧
      (∀ r ∈ c9Db.rows, r.thumbnail_data ≠ none → r ∈ db'.rows)) :=
  ⟨rfl, cleanup_old_boundary c9Db 90 1000 rfl⟩

/-- Witness for C10. -/

theorem prompt_empty_text_hash_witness :
    ([0x61] : PyStr) ≠ [] ∧
    ((fun _ : PyStr => "x") (normalize_prompt []) ≠ "") ∧
    (DB.connOk { rows := [], nextId := 1, connOk := true } = true) ∧
    ((postInit (fun _ => "x") { prompt_text := [0x61] }).prompt_hash =
        hash_prompt (fun _ => "x") [0x61] ∧
      (postInit (fun _ => "x") { prompt_text := [] }).prompt_hash = "" ∧
      hash_prompt (fun _ => "x") [] = (fun _ : PyStr => "x") (normalize_prompt []) ∧
      (postInit (fun _ => "x") { prompt_text := [] }).prompt_hash ≠
        hash_prompt (fun _ => "x") [] ∧
      serviceExistsByText (fun _ => "x") { rows := [], nextId := 1, connOk := true } [] =
        .ok (List.any [] (rowMatchHash ""))) :=
  ⟨by decide, by decide, rfl,
    prompt_empty_text_hash (fun _ => "x") [0x61] { rows := [], nextId := 1, connOk := true }
      (by decide) (by decide) rfl⟩

/-- C1 (code bug): with a caller-supplied prompt id, neither the usage
counter nor the failure counter is ever incremented.  The endpoint calls
`prompt_service.increment_usage_by_id` / `track_failure_by_id`, but
`PromptService` defines no such methods (they live on `PromptRepository`),
so the attribute lookup raises `AttributeError`, the surrounding
try/except swallows it, and the ledger is returned unchanged —
contradicting the claim (and the endpoint's own log message
"Successfully incremented usage count"). -/

theorem generate_id_tracking_noop (sha : PyStr → String) (db : DB) (pid : Nat)
    (prompt : PyStr) (modelName : String) (now : Int) (hpid : pid ≠ 0) :
    generateTrackUsageCore sha db (some pid) prompt modelName now =
      .error (.attributeError "increment_usage_by_id") ∧
    generateTrackUsage sha db (some pid) prompt modelName now = db ∧
    generateTrackFailureCore sha db (some pid) prompt now =
      .error (.attributeError "track_failure_by_id") ∧
    generateTrackFailure sha db (some pid) prompt now = db := by
  have hlookup1 : promptServiceLookup "increment_usage_by_id" =
      .error (.attributeError "increment_usage_by_id") := rfl
  have hlookup2 : promptServiceLookup "track_failure_by_id" =
      .error (.attributeError "track_failure_by_id") := rfl
  have hcond : (some pid).getD 0 ≠ 0 := by simpa using hpid
  have h1 : generateTrackUsageCore sha db (some pid) prompt modelName now =
      .error (.attributeError "increment_usage_by_id") := by
    unfold generateTrackUsageCore
    rw [if_pos hcond, hlookup1]
  have h3 : generateTrackFailureCore sha db (some pid) prompt now =
      .error (.attributeError "track_failure_by_id") := by
    unfold generateTrackFailureCore
    rw [if_pos hcond, hlookup2]
  refine ⟨h1, ?_, h3, ?_⟩
  · unfold generateTrackUsage
    rw [h1]
  · unfold generateTrackFailure
    rw [h3]

/-- Witness for the C1 theorem at prompt id 1 on a table that does hold a
row with id 1 — the counters still do not move. -/

theorem generate_id_tracking_noop_witness :
    (1 : Nat) ≠ 0 ∧
    (generateTrackUsageCore (fun _ => "") c8Db (some 1) [0x61] "m" 0 =
        .error (.attributeError "increment_usage_by_id") ∧
      generateTrackUsage (fun _ => "") c8Db (some 1) [0x61] "m" 0 = c8Db ∧
      generateTrackFailureCore (fun _ => "") c8Db (some 1) [0x61] 0 =
        .error (.attributeError "track_failure_by_id") ∧
      generateTrackFailure (fun _ => "") c8Db (some 1) [0x61] 0 = c8Db) :=
  ⟨by decide, generate_id_tracking_noop (fun _ => "") c8Db 1 [0x61] "m" 0 (by decide)⟩

/-- C4: name resolution is case-insensitive and trimmed — "GEMINI",
" gemini " and "gemini" all resolve to the Gemini adapter class; every
name that matches no registered adapter raises the unsupported-provider
error listing exactly the registered names; and
`get_available_providers` returns exactly the registered names. -/

theorem factory_resolution (name : PyStr)
    (hmiss : ∀ p ∈ imageProviders, strToPy p.1 ≠ pyStrip (pyLower name)) :
    factoryCreate (strToPy "GEMINI") = .ok .gemini ∧
    factoryCreate (strToPy " gemini ") = .ok .gemini ∧
    factoryCreate (strToPy "gemini") = .ok .gemini ∧
    factoryCreate name =
      .error ⟨name, ["gemini", "replicate", "stability", "huggingface"]⟩ ∧
    get_available_providers = ["gemini", "replicate", "stability", "huggingface"] := by
  refine ⟨rfl, rfl, rfl, ?_, rfl⟩
  unfold factoryCreate
  have hnone : imageProviders.find?
      (fun p => strToPy p.1 == pyStrip (pyLower name)) = none := by
    rw [List.find?_eq_none]
    intro p hp
    simp [hmiss p hp]
  rw [hnone]
  rfl

/-- Witness for C4 at the spec's own non-name. -/

theorem factory_resolution_witness :
    (∀ p ∈ imageProviders, strToPy p.1 ≠ pyStrip (pyLower (strToPy "not-a-provider"))) ∧
    (factoryCreate (strToPy "GEMINI") = .ok .gemini ∧
      factoryCreate (strToPy " gemini ") = .ok .gemini ∧
      factoryCreate (strToPy "gemini") = .ok .gemini ∧
      factoryCreate (strToPy "not-a-provider") =
        .error ⟨strToPy "not-a-provider",
          ["gemini", "replicate", "stability", "huggingface"]⟩ ∧
      get_available_providers = ["gemini", "replicate", "stability", "huggingface"]) :=
  ⟨by decide, factory_resolution (strToPy "not-a-provider") (by decide)⟩

/-- C5: for the adapters without native multi-image support (Replicate,
HuggingFace) and any non-empty image list, the multi-image entry point
produces exactly the single-image result on the first image, whatever the
vendor behaviour `genSingle` is — the remaining images are ignored. -/

theorem multi_image_uses_first_only
    (genR genH : UploadImage → PyStr → GenResult)
    (imgs : List UploadImage) (img1 : UploadImage) (rest : List UploadImage)
    (prompt : PyStr) (h : imgs = img1 :: rest) :
    replicate_generate_from_multiple_images_and_text genR imgs prompt =
      genR img1 prompt ∧
    huggingface_generate_from_multiple_images_and_text genH imgs prompt =
      genH img1 prompt := by
  subst h
  exact ⟨rfl, rfl⟩

/-- Witness for C5 with a stub adapter that echoes the consulted image's
bytes: three images in, the first one's result out. -/

theorem multi_image_uses_first_only_witness :
    ([⟨none, [1]⟩, ⟨none, [2]⟩, ⟨none, [3]⟩] : List UploadImage) =
      ⟨none, [1]⟩ :: [⟨none, [2]⟩, ⟨none, [3]⟩] ∧
    (replicate_generate_from_multiple_images_and_text
        (fun img _ => .ok (img.bytes, "image/png"))
        [⟨none, [1]⟩, ⟨none, [2]⟩, ⟨none, [3]⟩] [0x61] =
      (.ok ([1], "image/png") : GenResult) ∧
    huggingface_generate_from_multiple_images_and_text
        (fun img _ => .ok (img.bytes, "image/png"))
        [⟨none, [1]⟩, ⟨none, [2]⟩, ⟨none, [3]⟩] [0x61] =
      (.ok ([1], "image/png") : GenResult)) :=
  ⟨rfl, multi_image_uses_first_only
    (fun img _ => .ok (img.bytes, "image/png"))
    (fun img _ => .ok (img.bytes, "image/png"))
    [⟨none, [1]⟩, ⟨none, [2]⟩, ⟨none, [3]⟩] ⟨none, [1]⟩
    [⟨none, [2]⟩, ⟨none, [3]⟩] [0x61] rfl⟩

lemma contentTypeLookup (ext : String) :
    ((content_type_map.find? (fun p => p.1 == ext)).map (·.2)).getD "image/jpeg" =
      mimeForExtensionSpec ext := by
  have hne : ∀ s : String, ext ≠ s → (s == ext) = false := by
    intro s h
    rw [beq_eq_false_iff_ne]
    exact fun he => h he.symm
  unfold content_type_map mimeForExtensionSpec
  by_cases h1 : ext = ".jpg"
  · subst h1; rfl
  rw [List.find?_cons_of_neg _ (by simp [hne _ h1])]
  by_cases h2 : ext = ".jpeg"
  · subst h2; rfl
  rw [List.find?_cons_of_neg _ (by simp [hne _ h2])]
  by_cases h3 : ext = ".png"
  · subst h3; rfl
  rw [List.find?_cons_of_neg _ (by simp [hne _ h3])]
  by_cases h4 : ext = ".gif"
  · subst h4; rfl
  rw [List.find?_cons_of_neg _ (by simp [hne _ h4])]
  by_cases h5 : ext = ".webp"
  · subst h5; rfl
  rw [List.find?_cons_of_neg _ (by simp [hne _ h5])]
  simp [h1, h2, h3, h4, h5]

/-- C6: for every input, `process_reference_image` returns exactly
`"data:" ++ M ++ ";base64," ++ base64(bytes)` where `M` is given by the
spec's extension map (with `image/jpeg` for unknown or missing
extensions). -/

theorem process_reference_image_data_url (image : UploadImage) :
    process_reference_image image =
      "data:" ++
        mimeForExtensionSpec
          (strLowerAscii (pathSuffix (image.filename.getD "reference"))) ++
        ";base64," ++ String.mk (base64Encode image.bytes) := by
  unfold process_reference_image
  dsimp only
  rw [contentTypeLookup]

/-- Witness for C2 at the spec's own dedup example pair on an empty
ledger, with a constant stand-in digest function. -/
theorem attempt_save_prompt_dedup_witness :
    (({ rows := [], nextId := 1, connOk := true } : DB).connOk = true) ∧
    strToPy "A Cat  On A Mat" ≠ [] ∧
    strToPy "a cat on a mat" ≠ [] ∧
    normalize_prompt (strToPy "A Cat  On A Mat") =
      normalize_prompt (strToPy "a cat on a mat") ∧
    (∀ r ∈ ({ rows := [], nextId := 1, connOk := true } : DB).rows,
      rowMatchHash (hash_prompt (fun _ => "HH") (strToPy "A Cat  On A Mat")) r = false) ∧
    (∃ db1 p1 db2 p2,
      attempt_save_prompt (fun _ => "HH") (fun _ => none) "m"
          { rows := [], nextId := 1, connOk := true }
          (strToPy "A Cat  On A Mat") none 10 = (db1, some p1) ∧
      p1.prompt_hash = hash_prompt (fun _ => "HH") (strToPy "A Cat  On A Mat") ∧
      p1.total_uses = 1 ∧
      (db1.rows.filter (rowMatchHash
        (hash_prompt (fun _ => "HH") (strToPy "A Cat  On A Mat")))).length = 1 ∧
      attempt_save_prompt (fun _ => "HH") (fun _ => none) "m" db1
          (strToPy "a cat on a mat") none 20 = (db2, some p2) ∧
      p2.prompt_hash = hash_prompt (fun _ => "HH") (strToPy "A Cat  On A Mat") ∧
      p2.total_uses = 2 ∧ p2.id = p1.id ∧
      (db2.rows.filter (rowMatchHash
        (hash_prompt (fun _ => "HH") (strToPy "A Cat  On A Mat")))).length = 1 ∧
      db2.rows.length = db1.rows.length) :=
  ⟨rfl, by decide, by decide, by decide, by decide,
    attempt_save_prompt_dedup (fun _ => "HH") (fun _ => none) "m"
      { rows := [], nextId := 1, connOk := true }
      (strToPy "A Cat  On A Mat") (strToPy "a cat on a mat") none none 10 20
      rfl (by decide) (by decide) (by decide) (by decide)⟩

end ImageGenAI
